import Mathlib

/-!
Verification development for the JFR leak-profiler object sampler
(`src/share/vm/jfr/leakprofiler/sampling/objectSampler.cpp`).

The sampler orchestration (`ObjectSampler::add`, `oops_do`, `remove_dead`,
`scavenge` and the accessors) is embedded from the C++ source.  The
collaborators it calls (`SamplePriorityQueue`, `SampleList`, `ObjectSample`,
`JfrCheckpointManager`, `JfrStackTraceRepository`, `JfrEventSetting`,
`JfrTryLock`, `Tracing::time`) are not part of the provided sources; they are
modelled from the specification (spec.md sections 3, 4.1, 4.2 and 6) and each
such definition says so in its doc comment.

Machine integers (`size_t`, `traceid`) are modelled as `Nat`; the single
subtraction in the source (`_total_allocated - _priority_queue->total()`) is
`Nat` truncated subtraction — the two quantities satisfy
`heapTotal ≤ totalAllocated` on reachable states, where truncated and exact
subtraction agree, and no claim exercises 64-bit wrap-around.
-/

namespace LeakProfiler

/-- Modelled from the spec (section 3, "Sample"): `ObjectSample` from
`objectSample.hpp` is not under src/.  One retained observation: a slot id
(arena index), the weak object reference (opaque `Nat`), the mutable byte
weight `span`, the immutable `allocated` size, the thread identity, the
checkpoint reference, the optional stack-trace id/hash pair (0 = absent), the
allocation timestamp and the `dead` mark. -/
structure ObjectSample where
  slotId : Nat
  objRef : Nat
  span : Nat
  allocated : Nat
  threadId : Nat
  threadCheckpoint : Nat
  stackTraceId : Nat
  stackTraceHash : Nat
  allocationTime : Nat
  isDead : Bool
deriving DecidableEq, Repr

/-- Modelled from the spec (sections 2, 3, 4.1, 4.2): the state owned by
`ObjectSampler`, with `SampleList` and `SamplePriorityQueue` (not under src/)
represented explicitly.  `list` is the age list, head = most recent
(`SampleList::last()`), tail end = oldest.  `heapIds` holds the slot ids of
the samples currently contained in the priority queue; the heap's running
total is the sum of the spans of the contained samples.  `freeIds` is the
pool's free list. -/
structure ObjectSampler where
  size : Nat
  list : List ObjectSample
  heapIds : List Nat
  freeIds : List Nat
  totalAllocated : Nat
  deadSamples : Bool
  lastSweep : Nat
deriving DecidableEq, Repr

/-- Constructor `ObjectSampler::ObjectSampler(size)` (lines 38-46): empty
queue and list, `_total_allocated = 0`, `_dead_samples = false`,
`_last_sweep = Tracing::time()`; the pool owns `size` free slots. -/
def ObjectSampler.init (size now : Nat) : ObjectSampler :=
  { size := size, list := [], heapIds := [], freeIds := List.range size,
    totalAllocated := 0, deadSamples := false, lastSweep := now }

/-- Look a sample up by slot id in an age list (pointer identity in C++). -/
def listFind (l : List ObjectSample) (id : Nat) : Option ObjectSample :=
  l.find? (fun s => s.slotId = id)

/-- Span of the sample with the given slot id (0 when absent). -/
def spanOf (l : List ObjectSample) (id : Nat) : Nat :=
  match listFind l id with
  | some s => s.span
  | none => 0

/-- `ObjectSample::add_span` applied in place in the age list: the sample
with slot id `p` gets `w` added to its span; every other sample unchanged. -/
def listAddSpanAt (l : List ObjectSample) (p : Nat) (w : Nat) : List ObjectSample :=
  l.map (fun s => if s.slotId = p then { s with span := s.span + w } else s)

/-- Modelled from the spec (section 4.4, "age-list predecessor (strictly
older)"): `ObjectSample::prev()` from `objectSample.hpp` is not under src/.
With the age list ordered newest-first, the strictly older neighbor of the
sample with slot id `id` is the element directly after it. -/
def olderNeighbor : List ObjectSample → Nat → Option ObjectSample
  | [], _ => none
  | s :: rest, id => if s.slotId = id then rest.head? else olderNeighbor rest id

/-- `SamplePriorityQueue::count()` — number of contained samples. -/
def ObjectSampler.heapCount (sp : ObjectSampler) : Nat :=
  sp.heapIds.length

/-- Modelled from the spec (section 4.1): the heap's incrementally maintained
running total equals the sum of the spans of the contained samples; spans are
only ever mutated while the sample is outside the heap (remove before
`add_span`, push after), so the sum form coincides with the incremental one. -/
def ObjectSampler.heapTotal (sp : ObjectSampler) : Nat :=
  (sp.heapIds.map (spanOf sp.list)).sum

/-- The samples currently contained in the priority queue, in age order. -/
def ObjectSampler.heapSamples (sp : ObjectSampler) : List ObjectSample :=
  sp.list.filter (fun s => sp.heapIds.contains s.slotId)

/-- Minimum-span element of a list of samples (deterministic tie-break:
the earlier element wins). -/
def minBySpan : List ObjectSample → Option ObjectSample
  | [] => none
  | s :: rest =>
    match minBySpan rest with
    | none => some s
    | some m => if m.span < s.span then some m else some s

/-- Modelled from the spec (section 4.1): `SamplePriorityQueue::peek()`
returns the minimum-span contained sample without removing it. -/
def ObjectSampler.heapPeek (sp : ObjectSampler) : Option ObjectSample :=
  minBySpan sp.heapSamples

/-- `ObjectSampler::remove_dead` (lines 150-162): let `previous` be the dead
sample's age-list predecessor; if present, remove it from the heap, add the
dead sample's span to it, re-push it; then remove the dead sample from the
heap and release its slot to the pool's free list. -/
def ObjectSampler.remove_dead (sp : ObjectSampler) (id : Nat) : ObjectSampler :=
  match listFind sp.list id with
  | none => sp
  | some sample =>
    let sp1 :=
      match olderNeighbor sp.list id with
      | none => sp
      | some previous =>
        { sp with
          heapIds := previous.slotId :: sp.heapIds.erase previous.slotId,
          list := listAddSpanAt sp.list previous.slotId sample.span }
    { sp1 with
      heapIds := sp1.heapIds.erase id,
      list := sp1.list.filter (fun s => s.slotId ≠ id),
      freeIds := id :: sp1.freeIds }

/-- One iteration of the `ObjectSampler::scavenge` walk (lines 166-171):
look the visited sample up in the current state and remove it if dead. -/
def ObjectSampler.scavengeStep (sp : ObjectSampler) (id : Nat) : ObjectSampler :=
  match listFind sp.list id with
  | none => sp
  | some cur => if cur.isDead then sp.remove_dead id else sp

/-- The walk of `ObjectSampler::scavenge` (lines 165-172): the sequence of
visited samples is fixed before any removal (`next` captured first; only the
visited sample itself is ever unlinked), so the walk is driven by the slot
ids of the original age list, each looked up in the current state. -/
def ObjectSampler.scavengeLoop (sp : ObjectSampler) : List Nat → ObjectSampler
  | [] => sp
  | id :: rest => (sp.scavengeStep id).scavengeLoop rest

/-- `ObjectSampler::scavenge` (lines 164-174): walk the age list once,
calling `remove_dead` on every dead sample, then clear `_dead_samples`. -/
def ObjectSampler.scavenge (sp : ObjectSampler) : ObjectSampler :=
  { sp.scavengeLoop (sp.list.map ObjectSample.slotId) with deadSamples := false }

/-- `ObjectSampler::oops_do` (lines 132-148): walk the entire age list once;
for every sample not already dead, query `is_alive` on the referenced object
and either relocate the reference (`f`) or mark the sample dead and set
`_dead_samples`; finally set `_last_sweep` to the current time. -/
def ObjectSampler.oops_do (sp : ObjectSampler) (is_alive : Nat → Bool)
    (f : Nat → Nat) (now : Nat) : ObjectSampler :=
  { sp with
    list := sp.list.map (fun s =>
      if s.isDead then s
      else if is_alive s.objRef then { s with objRef := f s.objRef }
      else { s with isDead := true }),
    deadSamples := sp.deadSamples || sp.list.any (fun s => !s.isDead && !is_alive s.objRef),
    lastSweep := now }

/-- `ObjectSampler::last()` (lines 120-122): head of the age list. -/
def ObjectSampler.last (sp : ObjectSampler) : Option ObjectSample :=
  sp.list.head?

/-- `ObjectSampler::item_count()` (lines 176-178): the heap's count. -/
def ObjectSampler.item_count (sp : ObjectSampler) : Nat :=
  sp.heapCount

/-- `ObjectSampler::last_sweep()` (lines 190-192). -/
def ObjectSampler.last_sweep (sp : ObjectSampler) : Nat :=
  sp.lastSweep

/-- Modelled from the spec (section 6, "Context/identity resolver"): the
JFR thread-local data (`jfrThreadData.hpp` is not under src/): the trace
thread id, the thread-checkpoint state and the cached stack-trace id/hash. -/
structure JfrTraceData where
  threadId : Nat
  hasCheckpoint : Bool
  checkpointRef : Nat
  cachedStackTraceId : Nat
  cachedStackTraceHash : Nat
deriving DecidableEq, Repr

/-- The slice of `JavaThread` read by `ObjectSampler::add`: whether
`threadObj()` is non-NULL, and the JFR trace data. -/
structure JavaThread where
  threadObjPresent : Bool
  traceData : JfrTraceData
deriving DecidableEq, Repr

/-- Line 57: `thread->threadObj() != NULL ? thread->trace_data()->thread_id() : 0`;
0 is the reserved unresolved value. -/
def resolveThreadId (t : JavaThread) : Nat :=
  if t.threadObjPresent then t.traceData.threadId else 0

/-- The sampler together with the thread and the external stores mutated by
`ObjectSampler::add`: the checkpoint store (`JfrCheckpointManager`) and the
stack-trace store (`JfrStackTraceRepository`), both modelled from the spec
(section 6) as journals of the recorded entries. -/
structure SystemState where
  sampler : ObjectSampler
  thread : JavaThread
  checkpointStore : List Nat
  stackTraceStore : List (Nat × Nat)
deriving DecidableEq, Repr

/-- Oracle for the external calls made by one `ObjectSampler::add` call:
whether `JfrEventSetting::has_stacktrace` is on, the `(trace id, hash)` pair
`JfrStackTraceRepository::record` returns, the value of `Tracing::time()`,
whether the `JfrTryLock` acquisition succeeds, and the reference assigned by
`JfrCheckpointManager::create_thread_checkpoint`. -/
structure AddEnv where
  stacktraceEnabled : Bool
  traceId : Nat
  traceHash : Nat
  now : Nat
  lockFree : Bool
  newCheckpointRef : Nat
deriving DecidableEq, Repr

/-- Modelled from the spec (section 6, `createCheckpoint`):
`JfrCheckpointManager::create_thread_checkpoint` records the identity
snapshot in the external store and marks the thread as checkpointed. -/
def createThreadCheckpoint (env : AddEnv) (st : SystemState) : SystemState :=
  { st with
    thread := { st.thread with traceData :=
      { st.thread.traceData with hasCheckpoint := true, checkpointRef := env.newCheckpointRef } },
    checkpointStore := st.checkpointStore ++ [env.newCheckpointRef] }

/-- Modelled from the spec (section 6, `recordTrace`): lines 71-72 —
`JfrStackTraceRepository::record` records state in the external store and
returns the `(trace id, hash)` pair, which is then cached on the thread via
`set_cached_stack_trace_id` (unconditionally, even when the id is 0). -/
def recordStackTrace (env : AddEnv) (st : SystemState) : SystemState :=
  { st with
    stackTraceStore := st.stackTraceStore ++ [(env.traceId, env.traceHash)],
    thread := { st.thread with traceData :=
      { st.thread.traceData with cachedStackTraceId := env.traceId,
                                 cachedStackTraceHash := env.traceHash } } }

/-- Population of the admitted slot (lines 105-116).  Modelled from the spec
(sections 3 and 4.2): `SampleList::get`/`SampleList::reuse` are not under
src/; per section 4.2 the slot is re-linked at the head of the age list ready
for re-population, and per section 3 the optional fields are absent unless
set for the new event, so the slot starts from reset field values.  The add
code then sets thread id, checkpoint reference, the stack-trace pair only
when `stack_trace_id != 0` (lines 108-111), span := allocated, the object
reference, allocated size and allocation time, leaving the optional
stack-trace fields unset when the id is 0. -/
def populateSample (sid obj allocated threadId ckRef stid sthash time : Nat) : ObjectSample :=
  { slotId := sid, objRef := obj, span := allocated, allocated := allocated,
    threadId := threadId, threadCheckpoint := ckRef,
    stackTraceId := if stid ≠ 0 then stid else 0,
    stackTraceHash := if stid ≠ 0 then sthash else 0,
    allocationTime := time, isDead := false }

/-- Lines 88-117 of `ObjectSampler::add`, the part that runs under the lock
after the conditional scavenge: advance `_total_allocated`, compute
`span = _total_allocated - _priority_queue->total()`, then either reject
(peek's span strictly greater), pop-and-reuse (at capacity) or acquire a
fresh slot (below capacity), populate the slot and push it. -/
def ObjectSampler.admitCore (sp : ObjectSampler)
    (obj allocated threadId ckRef stid sthash time : Nat) : ObjectSampler :=
  let sp2 := { sp with totalAllocated := sp.totalAllocated + allocated }
  let span := sp2.totalAllocated - sp2.heapTotal
  if sp2.heapCount = sp2.size then
    match sp2.heapPeek with
    | none => sp2
    | some peek =>
      if peek.span > span then
        sp2
      else
        { sp2 with
          list := populateSample peek.slotId obj allocated threadId ckRef stid sthash time
            :: sp2.list.filter (fun s => s.slotId ≠ peek.slotId),
          heapIds := peek.slotId :: sp2.heapIds.erase peek.slotId }
  else
    match sp2.freeIds with
    | [] => sp2
    | sid :: rest =>
      { sp2 with
        freeIds := rest,
        list := populateSample sid obj allocated threadId ckRef stid sthash time :: sp2.list,
        heapIds := sid :: sp2.heapIds }

/-- `ObjectSampler::add` (lines 55-118): resolve the thread id (return if 0);
lazily create the thread checkpoint; when stack traces are enabled, record
one and cache the pair on the thread; capture the allocation time; try the
non-blocking lock (return if contended); scavenge if dead samples are
pending; then run the admission core. -/
def add (env : AddEnv) (obj allocated : Nat) (st : SystemState) : SystemState :=
  let threadId := resolveThreadId st.thread
  if threadId = 0 then
    st
  else
    let st1 := if st.thread.traceData.hasCheckpoint then st else createThreadCheckpoint env st
    let stid := if env.stacktraceEnabled then env.traceId else 0
    let sthash := if env.stacktraceEnabled then env.traceHash else 0
    let st2 := if env.stacktraceEnabled then recordStackTrace env st1 else st1
    let allocationTime := env.now
    if env.lockFree then
      let sp0 := st2.sampler
      let sp1 := if sp0.deadSamples then sp0.scavenge else sp0
      let sp2 := sp1.admitCore obj allocated threadId st2.thread.traceData.checkpointRef
        stid sthash allocationTime
      { st2 with sampler := sp2 }
    else
      st2

/-- The pre-guard phase of `ObjectSampler::add` (lines 63-73): everything
that runs before the `JfrTryLock` attempt — lazy thread-checkpoint creation
and, when enabled, stack-trace recording and caching. -/
def preGuard (env : AddEnv) (st : SystemState) : SystemState :=
  let st1 := if st.thread.traceData.hasCheckpoint then st else createThreadCheckpoint env st
  if env.stacktraceEnabled then recordStackTrace env st1 else st1

/-- Checkpoint reference the admitted sample receives: the thread's existing
one, or the one created at line 64. -/
def effCheckpointRef (env : AddEnv) (t : JavaThread) : Nat :=
  if t.traceData.hasCheckpoint then t.traceData.checkpointRef else env.newCheckpointRef

/-- The `stack_trace_id` local of `ObjectSampler::add` (lines 68-71). -/
def effStackTraceId (env : AddEnv) : Nat :=
  if env.stacktraceEnabled then env.traceId else 0

/-- The `stack_trace_hash` local of `ObjectSampler::add` (lines 69-71). -/
def effStackTraceHash (env : AddEnv) : Nat :=
  if env.stacktraceEnabled then env.traceHash else 0

/-! ### Basic frame lemmas -/

theorem createThreadCheckpoint_sampler (env : AddEnv) (st : SystemState) :
    (createThreadCheckpoint env st).sampler = st.sampler := rfl

theorem recordStackTrace_sampler (env : AddEnv) (st : SystemState) :
    (recordStackTrace env st).sampler = st.sampler := rfl

theorem preGuard_sampler (env : AddEnv) (st : SystemState) :
    (preGuard env st).sampler = st.sampler := by
  unfold preGuard
  split <;> split <;> rfl

theorem preGuard_checkpointRef (env : AddEnv) (st : SystemState) :
    (preGuard env st).thread.traceData.checkpointRef = effCheckpointRef env st.thread := by
  unfold preGuard effCheckpointRef createThreadCheckpoint recordStackTrace
  split <;> split <;> rfl

theorem remove_dead_totalAllocated (sp : ObjectSampler) (id : Nat) :
    (sp.remove_dead id).totalAllocated = sp.totalAllocated := by
  unfold ObjectSampler.remove_dead
  split
  · rfl
  · split <;> rfl

theorem scavengeStep_totalAllocated (sp : ObjectSampler) (id : Nat) :
    (sp.scavengeStep id).totalAllocated = sp.totalAllocated := by
  unfold ObjectSampler.scavengeStep
  split
  · rfl
  · split
    · exact remove_dead_totalAllocated sp id
    · rfl

theorem scavengeLoop_totalAllocated (ids : List Nat) (sp : ObjectSampler) :
    (sp.scavengeLoop ids).totalAllocated = sp.totalAllocated := by
  induction ids generalizing sp with
  | nil => rfl
  | cons id rest ih =>
    simp only [ObjectSampler.scavengeLoop]
    rw [ih]
    exact scavengeStep_totalAllocated sp id

theorem scavenge_totalAllocated (sp : ObjectSampler) :
    sp.scavenge.totalAllocated = sp.totalAllocated := by
  unfold ObjectSampler.scavenge
  exact scavengeLoop_totalAllocated _ sp

theorem admitCore_totalAllocated (sp : ObjectSampler)
    (obj allocated threadId ckRef stid sthash time : Nat) :
    (sp.admitCore obj allocated threadId ckRef stid sthash time).totalAllocated =
      sp.totalAllocated + allocated := by
  simp only [ObjectSampler.admitCore]
  split
  · split
    · rfl
    · split <;> rfl
  · split <;> rfl

/-- Shape of `ObjectSampler::add` when the identity resolves and the lock is
acquired: the pre-guard effects happen, then the (conditionally scavenged)
sampler runs the admission core. -/
theorem add_locked (env : AddEnv) (obj allocated : Nat) (st : SystemState)
    (hres : resolveThreadId st.thread ≠ 0) (hlock : env.lockFree = true) :
    add env obj allocated st =
      { preGuard env st with sampler :=
          ((if st.sampler.deadSamples then st.sampler.scavenge else st.sampler).admitCore
            obj allocated (resolveThreadId st.thread) (effCheckpointRef env st.thread)
            (effStackTraceId env) (effStackTraceHash env) env.now) } := by
  by_cases hck : st.thread.traceData.hasCheckpoint <;>
    by_cases hen : env.stacktraceEnabled <;>
      simp [add, preGuard, effCheckpointRef, effStackTraceId, effStackTraceHash,
        createThreadCheckpoint, recordStackTrace, hres, hlock, hck, hen]

/-- Shape of `ObjectSampler::add` when the identity resolves but the
non-blocking lock is contended: only the pre-guard effects happen. -/
theorem add_contended (env : AddEnv) (obj allocated : Nat) (st : SystemState)
    (hres : resolveThreadId st.thread ≠ 0) (hlock : env.lockFree = false) :
    add env obj allocated st = preGuard env st := by
  unfold add preGuard
  rw [if_neg hres, hlock]
  simp

/-! ### Concrete fixtures used by the witnesses -/

def tdNoCk : JfrTraceData := ⟨7, false, 0, 0, 0⟩

def thrRes : JavaThread := ⟨true, tdNoCk⟩

def thrUnres : JavaThread := ⟨false, tdNoCk⟩

def envPlain : AddEnv := ⟨false, 0, 0, 0, true, 1⟩

def envContended : AddEnv := ⟨true, 5, 9, 3, false, 1⟩

def sysInit (cap : Nat) : SystemState := ⟨ObjectSampler.init cap 0, thrRes, [], []⟩

def sysUnres : SystemState := ⟨ObjectSampler.init 2 0, thrUnres, [], []⟩

/-! ### Claims -/

/-- Claim C4: a `record` call whose origin identity resolves to the reserved
value 0 returns with the whole system state — `totalAllocated`, heap, pool,
`deadSamplesPending`, and the external checkpoint and stack-trace stores —
completely unchanged (lines 57-60 return before any mutation). -/
theorem record_unresolved_identity_noop (env : AddEnv) (obj allocated : Nat)
    (st : SystemState) (h : resolveThreadId st.thread = 0) :
    add env obj allocated st = st := by
  unfold add
  rw [if_pos h]

theorem record_unresolved_identity_noop_witness :
    resolveThreadId sysUnres.thread = 0 ∧ add envContended 4 10 sysUnres = sysUnres :=
  ⟨by decide, record_unresolved_identity_noop envContended 4 10 sysUnres (by decide)⟩

/-- Claim C2: `totalAllocated` advances by `allocatedBytes` exactly when the
guard was acquired — a contention drop (and an unresolved-identity drop,
where the guard is never reached) leaves it unchanged, while a capacity
rejection still advances it (line 88 runs before the comparison at line 94). -/
theorem record_totalAllocated_advance (env : AddEnv) (obj allocated : Nat)
    (st : SystemState) :
    (add env obj allocated st).sampler.totalAllocated =
      if resolveThreadId st.thread = 0 then st.sampler.totalAllocated
      else if env.lockFree then st.sampler.totalAllocated + allocated
      else st.sampler.totalAllocated := by
  by_cases hres : resolveThreadId st.thread = 0
  · rw [record_unresolved_identity_noop env obj allocated st hres, if_pos hres]
  · rw [if_neg hres]
    by_cases hlock : env.lockFree
    · rw [add_locked env obj allocated st hres hlock, if_pos hlock]
      simp only [admitCore_totalAllocated, apply_ite ObjectSampler.totalAllocated,
        scavenge_totalAllocated, ite_self]
    · rw [add_contended env obj allocated st hres (by simpa using hlock), if_neg hlock,
        preGuard_sampler]

/-- Claim C9: for a resolved `record` call, checkpoint creation (line 64) and
stack-trace recording plus caching (lines 71-72) happen before the lock
attempt (line 77), so a contention drop leaves the sampler untouched but may
already have mutated the external checkpoint store, the external stack-trace
store and the thread's cached trace state. -/
theorem record_preGuard_side_effects (env : AddEnv) (obj allocated : Nat)
    (st : SystemState) (hres : resolveThreadId st.thread ≠ 0)
    (hlock : env.lockFree = false) :
    (add env obj allocated st).sampler = st.sampler ∧
    (add env obj allocated st).thread.traceData.hasCheckpoint = true ∧
    (add env obj allocated st).checkpointStore =
      (if st.thread.traceData.hasCheckpoint then st.checkpointStore
       else st.checkpointStore ++ [env.newCheckpointRef]) ∧
    (add env obj allocated st).stackTraceStore =
      (if env.stacktraceEnabled then st.stackTraceStore ++ [(env.traceId, env.traceHash)]
       else st.stackTraceStore) ∧
    (add env obj allocated st).thread.traceData.cachedStackTraceId =
      (if env.stacktraceEnabled then env.traceId
       else st.thread.traceData.cachedStackTraceId) ∧
    (add env obj allocated st).thread.traceData.cachedStackTraceHash =
      (if env.stacktraceEnabled then env.traceHash
       else st.thread.traceData.cachedStackTraceHash) := by
  rw [add_contended env obj allocated st hres hlock]
  unfold preGuard createThreadCheckpoint recordStackTrace
  by_cases hck : st.thread.traceData.hasCheckpoint <;>
    by_cases hen : env.stacktraceEnabled <;>
      simp [hck, hen]

theorem record_preGuard_side_effects_witness :
    (add envContended 4 10 (sysInit 2)).sampler = (sysInit 2).sampler ∧
    (add envContended 4 10 (sysInit 2)).thread.traceData.hasCheckpoint = true ∧
    (add envContended 4 10 (sysInit 2)).checkpointStore =
      (if (sysInit 2).thread.traceData.hasCheckpoint then (sysInit 2).checkpointStore
       else (sysInit 2).checkpointStore ++ [envContended.newCheckpointRef]) ∧
    (add envContended 4 10 (sysInit 2)).stackTraceStore =
      (if envContended.stacktraceEnabled then
        (sysInit 2).stackTraceStore ++ [(envContended.traceId, envContended.traceHash)]
       else (sysInit 2).stackTraceStore) ∧
    (add envContended 4 10 (sysInit 2)).thread.traceData.cachedStackTraceId =
      (if envContended.stacktraceEnabled then envContended.traceId
       else (sysInit 2).thread.traceData.cachedStackTraceId) ∧
    (add envContended 4 10 (sysInit 2)).thread.traceData.cachedStackTraceHash =
      (if envContended.stacktraceEnabled then envContended.traceHash
       else (sysInit 2).thread.traceData.cachedStackTraceHash) :=
  record_preGuard_side_effects envContended 4 10 (sysInit 2) (by decide) rfl

theorem oops_step_span (is_alive : Nat → Bool) (f : Nat → Nat) (s : ObjectSample) :
    (if s.isDead then s
     else if is_alive s.objRef then { s with objRef := f s.objRef }
     else { s with isDead := true }).span = s.span := by
  split
  · rfl
  · split <;> rfl

/-- Claim C5: `oops_do` walks the entire age list exactly once, querying
`is_alive` only for samples not already dead and either relocating the
reference or marking the sample dead (setting `_dead_samples`); dead samples
are untouched; no sample leaves the heap or the pool, no span changes, and
`_last_sweep` is set to the time of the call. -/
theorem oops_do_frame (sp : ObjectSampler) (is_alive : Nat → Bool) (f : Nat → Nat)
    (now : Nat) :
    (sp.oops_do is_alive f now).list = sp.list.map (fun s =>
      if s.isDead then s
      else if is_alive s.objRef then { s with objRef := f s.objRef }
      else { s with isDead := true }) ∧
    (sp.oops_do is_alive f now).list.map ObjectSample.span = sp.list.map ObjectSample.span ∧
    (sp.oops_do is_alive f now).list.length = sp.list.length ∧
    (sp.oops_do is_alive f now).heapIds = sp.heapIds ∧
    (sp.oops_do is_alive f now).freeIds = sp.freeIds ∧
    (sp.oops_do is_alive f now).totalAllocated = sp.totalAllocated ∧
    (sp.oops_do is_alive f now).size = sp.size ∧
    (sp.oops_do is_alive f now).lastSweep = now ∧
    (sp.oops_do is_alive f now).deadSamples =
      (sp.deadSamples || sp.list.any (fun s => !s.isDead && !is_alive s.objRef)) := by
  refine ⟨rfl, ?_, ?_, rfl, rfl, rfl, rfl, rfl, rfl⟩
  · show (sp.list.map _).map ObjectSample.span = _
    rw [List.map_map]
    exact List.map_congr_left (fun s _ => oops_step_span is_alive f s)
  · exact List.length_map _ _

/-- Claim C7: when the guard is acquired with `_dead_samples` set, the
scavenge pass runs to completion (clearing the flag) before
`_total_allocated` is advanced and before the admission decision — the
admission core operates on the scavenged sampler (lines 83-88). -/
theorem record_runs_scavenge_before_admission (env : AddEnv) (obj allocated : Nat)
    (st : SystemState) (hres : resolveThreadId st.thread ≠ 0)
    (hlock : env.lockFree = true) (hdead : st.sampler.deadSamples = true) :
    (add env obj allocated st).sampler =
      st.sampler.scavenge.admitCore obj allocated (resolveThreadId st.thread)
        (effCheckpointRef env st.thread) (effStackTraceId env) (effStackTraceHash env)
        env.now ∧
    st.sampler.scavenge.deadSamples = false ∧
    (add env obj allocated st).sampler.totalAllocated =
      st.sampler.scavenge.totalAllocated + allocated := by
  have hs : (add env obj allocated st).sampler =
      (if st.sampler.deadSamples then st.sampler.scavenge else st.sampler).admitCore
        obj allocated (resolveThreadId st.thread) (effCheckpointRef env st.thread)
        (effStackTraceId env) (effStackTraceHash env) env.now := by
    rw [add_locked env obj allocated st hres hlock]
  rw [if_pos hdead] at hs
  exact ⟨hs, rfl, by rw [hs, admitCore_totalAllocated]⟩

theorem heapCount_setTotal (sp : ObjectSampler) (x : Nat) :
    ObjectSampler.heapCount { sp with totalAllocated := x } = sp.heapCount := rfl

theorem heapPeek_setTotal (sp : ObjectSampler) (x : Nat) :
    ObjectSampler.heapPeek { sp with totalAllocated := x } = sp.heapPeek := rfl

theorem heapTotal_setTotal (sp : ObjectSampler) (x : Nat) :
    ObjectSampler.heapTotal { sp with totalAllocated := x } = sp.heapTotal := rfl

/-! ### Fixtures for capacity claims -/

def thrCk : JavaThread := ⟨true, ⟨7, true, 1, 0, 0⟩⟩

def sm10 : ObjectSample :=
  { slotId := 0, objRef := 5, span := 10, allocated := 10, threadId := 7,
    threadCheckpoint := 1, stackTraceId := 0, stackTraceHash := 0,
    allocationTime := 0, isDead := false }

def spFull : ObjectSampler :=
  { size := 1, list := [sm10], heapIds := [0], freeIds := [],
    totalAllocated := 10, deadSamples := false, lastSweep := 0 }

def sysFull : SystemState := ⟨spFull, thrCk, [1], []⟩

/-- Claim C1: with the guard acquired and the heap at `size` capacity,
`candidateSpan = totalAllocated (after adding) - heap.total()`; if the
minimum-span sample's span is strictly greater the event is rejected with no
pop/reuse/push (only the counter advanced), otherwise the minimum is popped,
its slot reused for the new sample, and the new sample pushed (lines 88-117). -/
theorem record_at_capacity_cases (env : AddEnv) (obj allocated : Nat)
    (st : SystemState) (m : ObjectSample)
    (hres : resolveThreadId st.thread ≠ 0) (hlock : env.lockFree = true)
    (hnodead : st.sampler.deadSamples = false)
    (hfull : st.sampler.heapCount = st.sampler.size)
    (hpeek : st.sampler.heapPeek = some m) :
    (m.span > st.sampler.totalAllocated + allocated - st.sampler.heapTotal →
      (add env obj allocated st).sampler =
        { st.sampler with totalAllocated := st.sampler.totalAllocated + allocated }) ∧
    (¬ m.span > st.sampler.totalAllocated + allocated - st.sampler.heapTotal →
      (add env obj allocated st).sampler =
        { st.sampler with
          totalAllocated := st.sampler.totalAllocated + allocated,
          list := populateSample m.slotId obj allocated (resolveThreadId st.thread)
              (effCheckpointRef env st.thread) (effStackTraceId env) (effStackTraceHash env)
              env.now :: st.sampler.list.filter (fun s => s.slotId ≠ m.slotId),
          heapIds := m.slotId :: st.sampler.heapIds.erase m.slotId }) := by
  have hs : (add env obj allocated st).sampler =
      st.sampler.admitCore obj allocated (resolveThreadId st.thread)
        (effCheckpointRef env st.thread) (effStackTraceId env) (effStackTraceHash env)
        env.now := by
    rw [add_locked env obj allocated st hres hlock, if_neg (by simp [hnodead])]
  refine ⟨fun h => ?_, fun h => ?_⟩ <;>
    rw [hs] <;>
      simp only [ObjectSampler.admitCore, heapCount_setTotal, heapPeek_setTotal,
        heapTotal_setTotal, hfull, hpeek, if_true, eq_self_iff_true]
  · rw [if_pos h]
  · rw [if_neg h]

theorem record_at_capacity_cases_witness :
    ((add envPlain 3 2 sysFull).sampler =
      { sysFull.sampler with totalAllocated := sysFull.sampler.totalAllocated + 2 }) ∧
    ((add envPlain 3 100 sysFull).sampler =
      { sysFull.sampler with
        totalAllocated := sysFull.sampler.totalAllocated + 100,
        list := populateSample sm10.slotId 3 100 (resolveThreadId sysFull.thread)
            (effCheckpointRef envPlain sysFull.thread) (effStackTraceId envPlain)
            (effStackTraceHash envPlain) envPlain.now
          :: sysFull.sampler.list.filter (fun s => s.slotId ≠ sm10.slotId),
        heapIds := sm10.slotId :: sysFull.sampler.heapIds.erase sm10.slotId }) :=
  ⟨(record_at_capacity_cases envPlain 3 2 sysFull sm10 (by decide) rfl (by decide)
      (by decide) (by decide)).1 (by decide),
   (record_at_capacity_cases envPlain 3 100 sysFull sm10 (by decide) rfl (by decide)
      (by decide) (by decide)).2 (by decide)⟩

/-- With `stack_trace_id = 0` the populated sample's optional stack-trace
fields stay at their reset values, whatever the hash argument. -/
theorem populateSample_zero (sid obj allocated tid ck h t : Nat) :
    populateSample sid obj allocated tid ck 0 h t =
      { slotId := sid, objRef := obj, span := allocated, allocated := allocated,
        threadId := tid, threadCheckpoint := ck, stackTraceId := 0,
        stackTraceHash := 0, allocationTime := t, isDead := false } := by
  simp [populateSample]

theorem admitCore_stid_zero_hash (sp : ObjectSampler) (obj allocated tid ck h1 h2 t : Nat) :
    sp.admitCore obj allocated tid ck 0 h1 t = sp.admitCore obj allocated tid ck 0 h2 t := by
  simp only [ObjectSampler.admitCore, populateSample_zero]

theorem admitCore_list_mem (sp : ObjectSampler) (obj allocated tid ck sthash t : Nat)
    (s : ObjectSample) (hs : s ∈ (sp.admitCore obj allocated tid ck 0 sthash t).list) :
    s ∈ sp.list ∨ (s.stackTraceId = 0 ∧ s.stackTraceHash = 0) := by
  simp only [ObjectSampler.admitCore, populateSample_zero] at hs
  split at hs
  · split at hs
    · exact Or.inl hs
    · split at hs
      · exact Or.inl hs
      · simp only [List.mem_cons] at hs
        rcases hs with h | h
        · right
          rw [h]
          exact ⟨rfl, rfl⟩
        · exact Or.inl (List.mem_of_mem_filter h)
  · split at hs
    · exact Or.inl hs
    · simp only [List.mem_cons] at hs
      rcases hs with h | h
      · right
        rw [h]
        exact ⟨rfl, rfl⟩
      · exact Or.inl h

theorem preGuard_cached (env : AddEnv) (st : SystemState)
    (hen : env.stacktraceEnabled = true) :
    (preGuard env st).thread.traceData.cachedStackTraceId = env.traceId ∧
    (preGuard env st).thread.traceData.cachedStackTraceHash = env.traceHash := by
  unfold preGuard recordStackTrace createThreadCheckpoint
  by_cases hck : st.thread.traceData.hasCheckpoint <;> simp [hck, hen]

/-- Claim C10: when stack-trace capture is enabled but the repository returns
trace id 0, the admitted sample's stack-trace fields are left unset (lines
108-111 skip them), making the sampler state indistinguishable from capture
being disabled, even though the thread's cached stack-trace pair was still
overwritten with `(0, hash)` (line 72). -/
theorem stacktrace_id_zero_sample_unset (env : AddEnv) (obj allocated : Nat)
    (st : SystemState) (hres : resolveThreadId st.thread ≠ 0)
    (hlock : env.lockFree = true) (hen : env.stacktraceEnabled = true)
    (hid : env.traceId = 0) (hnodead : st.sampler.deadSamples = false) :
    (add env obj allocated st).thread.traceData.cachedStackTraceId = 0 ∧
    (add env obj allocated st).thread.traceData.cachedStackTraceHash = env.traceHash ∧
    (add env obj allocated st).sampler =
      (add { env with stacktraceEnabled := false } obj allocated st).sampler ∧
    (∀ s ∈ (add env obj allocated st).sampler.list,
      s ∈ st.sampler.list ∨ (s.stackTraceId = 0 ∧ s.stackTraceHash = 0)) := by
  have hthread : (add env obj allocated st).thread = (preGuard env st).thread := by
    rw [add_locked env obj allocated st hres hlock]
  have hs : (add env obj allocated st).sampler =
      st.sampler.admitCore obj allocated (resolveThreadId st.thread)
        (effCheckpointRef env st.thread) (effStackTraceId env) (effStackTraceHash env)
        env.now := by
    rw [add_locked env obj allocated st hres hlock, if_neg (by simp [hnodead])]
  have hs' : (add { env with stacktraceEnabled := false } obj allocated st).sampler =
      st.sampler.admitCore obj allocated (resolveThreadId st.thread)
        (effCheckpointRef env st.thread) 0 0 env.now := by
    rw [add_locked { env with stacktraceEnabled := false } obj allocated st hres hlock,
      if_neg (by simp [hnodead])]
    rfl
  have hstid : effStackTraceId env = 0 := by simp [effStackTraceId, hen, hid]
  refine ⟨?_, ?_, ?_, ?_⟩
  · rw [hthread, (preGuard_cached env st hen).1, hid]
  · rw [hthread, (preGuard_cached env st hen).2]
  · rw [hs, hs', hstid]
    exact admitCore_stid_zero_hash st.sampler obj allocated (resolveThreadId st.thread)
      (effCheckpointRef env st.thread) (effStackTraceHash env) 0 env.now
  · intro s hmem
    rw [hs, hstid] at hmem
    exact admitCore_list_mem st.sampler obj allocated (resolveThreadId st.thread)
      (effCheckpointRef env st.thread) (effStackTraceHash env) env.now s hmem

def envTraceZero : AddEnv := ⟨true, 0, 9, 0, true, 1⟩

theorem stacktrace_id_zero_sample_unset_witness :
    (add envTraceZero 4 10 (sysInit 2)).thread.traceData.cachedStackTraceId = 0 ∧
    (add envTraceZero 4 10 (sysInit 2)).thread.traceData.cachedStackTraceHash =
      envTraceZero.traceHash ∧
    (add envTraceZero 4 10 (sysInit 2)).sampler =
      (add { envTraceZero with stacktraceEnabled := false } 4 10 (sysInit 2)).sampler ∧
    (∀ s ∈ (add envTraceZero 4 10 (sysInit 2)).sampler.list,
      s ∈ (sysInit 2).sampler.list ∨ (s.stackTraceId = 0 ∧ s.stackTraceHash = 0)) :=
  stacktrace_id_zero_sample_unset envTraceZero 4 10 (sysInit 2) (by decide) rfl rfl rfl rfl

theorem admitCore_head (sp : ObjectSampler) (obj allocated tid ck stid sthash t : Nat)
    (hok : (sp.heapCount = sp.size ∧
        ∃ m, sp.heapPeek = some m ∧
          m.span ≤ sp.totalAllocated + allocated - sp.heapTotal) ∨
      (sp.heapCount ≠ sp.size ∧ sp.freeIds ≠ [])) :
    ∃ sid, (sp.admitCore obj allocated tid ck stid sthash t).list.head? =
      some (populateSample sid obj allocated tid ck stid sthash t) := by
  simp only [ObjectSampler.admitCore, heapCount_setTotal, heapPeek_setTotal,
    heapTotal_setTotal]
  rcases hok with ⟨hfull, m, hm, hle⟩ | ⟨hnf, hfree⟩
  · simp only [hfull, hm, if_true, eq_self_iff_true]
    rw [if_neg (Nat.not_lt.mpr hle)]
    exact ⟨m.slotId, rfl⟩
  · rw [if_neg hnf]
    cases hf : sp.freeIds with
    | nil => exact absurd hf hfree
    | cons a rest =>
      simp only [hf]
      exact ⟨a, rfl⟩

/-- Replay of the spec's end-to-end scenario: a sequence of allocation sizes
admitted through `add` with identity resolved, capture disabled and no
contention. -/
def replaySizes (sizes : List Nat) (st : SystemState) : SystemState :=
  sizes.foldl (fun s a => add envPlain 0 a s) st

/-- Claim C8: every admitted event yields a sample with
`span == allocatedBytes` and `allocatedSize == allocatedBytes` (lines 113,
115) — not the candidate span; replaying sizes 10, 20, 5, 100 at capacity 3
retains spans {10,20,5} with total 35 after three events, then evicts the
size-5 sample (5 <= candidate 100) ending with spans {10,20,100}, total 130. -/
theorem admitted_sample_span_eq_allocated :
    (∀ (env : AddEnv) (obj allocated : Nat) (st : SystemState),
      resolveThreadId st.thread ≠ 0 → env.lockFree = true →
      st.sampler.deadSamples = false →
      ((st.sampler.heapCount = st.sampler.size ∧
        ∃ m, st.sampler.heapPeek = some m ∧
          m.span ≤ st.sampler.totalAllocated + allocated - st.sampler.heapTotal) ∨
       (st.sampler.heapCount ≠ st.sampler.size ∧ st.sampler.freeIds ≠ [])) →
      ∃ ns, (add env obj allocated st).sampler.list.head? = some ns ∧
        ns.span = allocated ∧ ns.allocated = allocated) ∧
    (replaySizes [10, 20, 5] (sysInit 3)).sampler.list.map ObjectSample.span =
      [5, 20, 10] ∧
    (replaySizes [10, 20, 5] (sysInit 3)).sampler.heapTotal = 35 ∧
    (replaySizes [10, 20, 5, 100] (sysInit 3)).sampler.list.map ObjectSample.span =
      [100, 20, 10] ∧
    (replaySizes [10, 20, 5, 100] (sysInit 3)).sampler.heapTotal = 130 ∧
    (replaySizes [10, 20, 5, 100] (sysInit 3)).sampler.totalAllocated = 135 ∧
    (replaySizes [10, 20, 5, 100] (sysInit 3)).sampler.list.all
      (fun s => s.span ≠ 5) = true := by
  refine ⟨?_, rfl, rfl, rfl, rfl, rfl, rfl⟩
  intro env obj allocated st hres hlock hnodead hok
  have hs : (add env obj allocated st).sampler =
      st.sampler.admitCore obj allocated (resolveThreadId st.thread)
        (effCheckpointRef env st.thread) (effStackTraceId env) (effStackTraceHash env)
        env.now := by
    rw [add_locked env obj allocated st hres hlock, if_neg (by simp [hnodead])]
  rw [hs]
  obtain ⟨sid, hhead⟩ := admitCore_head st.sampler obj allocated (resolveThreadId st.thread)
    (effCheckpointRef env st.thread) (effStackTraceId env) (effStackTraceHash env)
    env.now hok
  exact ⟨_, hhead, rfl, rfl⟩

theorem admitted_sample_span_eq_allocated_witness :
    ∃ ns, (add envPlain 0 10 (sysInit 3)).sampler.list.head? = some ns ∧
      ns.span = 10 ∧ ns.allocated = 10 :=
  admitted_sample_span_eq_allocated.1 envPlain 0 10 (sysInit 3) (by decide) rfl rfl
    (Or.inr ⟨by decide, by decide⟩)

/-- A dead sample (newest) whose age-list predecessor `smOld` survives. -/
def smDead : ObjectSample :=
  { slotId := 0, objRef := 5, span := 20, allocated := 20, threadId := 7,
    threadCheckpoint := 1, stackTraceId := 0, stackTraceHash := 0,
    allocationTime := 0, isDead := true }

def smOld : ObjectSample :=
  { slotId := 1, objRef := 6, span := 10, allocated := 10, threadId := 7,
    threadCheckpoint := 1, stackTraceId := 0, stackTraceHash := 0,
    allocationTime := 0, isDead := false }

def spDead : ObjectSampler :=
  { size := 2, list := [smDead, smOld], heapIds := [0, 1], freeIds := [],
    totalAllocated := 30, deadSamples := true, lastSweep := 0 }

def sysDead : SystemState := ⟨spDead, thrCk, [1], []⟩

theorem record_runs_scavenge_before_admission_witness :
    (add envPlain 2 4 sysDead).sampler =
      sysDead.sampler.scavenge.admitCore 2 4 (resolveThreadId sysDead.thread)
        (effCheckpointRef envPlain sysDead.thread) (effStackTraceId envPlain)
        (effStackTraceHash envPlain) envPlain.now ∧
    sysDead.sampler.scavenge.deadSamples = false ∧
    (add envPlain 2 4 sysDead).sampler.totalAllocated =
      sysDead.sampler.scavenge.totalAllocated + 4 :=
  record_runs_scavenge_before_admission envPlain 2 4 sysDead (by decide) rfl rfl

/-! ### Age-list bookkeeping lemmas for the scavenge pass -/

theorem listAddSpanAt_map_slotId (l : List ObjectSample) (p w : Nat) :
    (listAddSpanAt l p w).map ObjectSample.slotId = l.map ObjectSample.slotId := by
  unfold listAddSpanAt
  rw [List.map_map]
  apply List.map_congr_left
  intro s _
  by_cases h : s.slotId = p <;> simp [h]

theorem filter_ne_map_slotId (l : List ObjectSample) (id : Nat) :
    (l.filter (fun s => s.slotId ≠ id)).map ObjectSample.slotId =
      (l.map ObjectSample.slotId).filter (fun x => x ≠ id) := by
  induction l with
  | nil => rfl
  | cons a t ih =>
    simp only [List.map_cons, List.filter_cons]
    by_cases h : a.slotId = id
    · rw [if_neg (by simp [h]), if_neg (by simp [h])]
      exact ih
    · rw [if_pos (by simp [h]), if_pos (by simp [h])]
      simp only [List.map_cons]
      rw [ih]

theorem listFind_eq_none_forall (l : List ObjectSample) (id : Nat)
    (h : listFind l id = none) : ∀ s ∈ l, s.slotId ≠ id := by
  intro s hs
  have := List.find?_eq_none.mp h s hs
  simpa using this

theorem listFind_mem (l : List ObjectSample) (id : Nat) (s : ObjectSample)
    (h : listFind l id = some s) : s ∈ l ∧ s.slotId = id := by
  refine ⟨List.mem_of_find?_eq_some h, ?_⟩
  have := List.find?_some h
  simpa using this

theorem remove_dead_ids (sp : ObjectSampler) (id : Nat) :
    (sp.remove_dead id).list.map ObjectSample.slotId =
      (sp.list.map ObjectSample.slotId).filter (fun x => x ≠ id) := by
  simp only [ObjectSampler.remove_dead]
  split
  · next hnone =>
    refine (List.filter_eq_self.mpr ?_).symm
    intro x hx
    rw [List.mem_map] at hx
    obtain ⟨s, hs, rfl⟩ := hx
    simpa using listFind_eq_none_forall sp.list id hnone s hs
  · split
    · exact filter_ne_map_slotId sp.list id
    · rw [filter_ne_map_slotId, listAddSpanAt_map_slotId]

theorem remove_dead_list_shape (sp : ObjectSampler) (id : Nat) (s' : ObjectSample)
    (hs : s' ∈ (sp.remove_dead id).list) :
    ∃ s0 ∈ sp.list, s'.slotId = s0.slotId ∧ s'.isDead = s0.isDead := by
  simp only [ObjectSampler.remove_dead] at hs
  split at hs
  · exact ⟨s', hs, rfl, rfl⟩
  · split at hs
    · exact ⟨s', List.mem_of_mem_filter hs, rfl, rfl⟩
    · have hs2 := List.mem_of_mem_filter hs
      unfold listAddSpanAt at hs2
      rw [List.mem_map] at hs2
      obtain ⟨s0, hs0, rfl⟩ := hs2
      refine ⟨s0, hs0, ?_, ?_⟩ <;> split <;> rfl

/-- All samples in the list whose slot id is outside `ids` are alive. -/
def noDeadOutside (sp : ObjectSampler) (ids : List Nat) : Prop :=
  ∀ s ∈ sp.list, s.isDead = true → s.slotId ∈ ids

theorem scavengeStep_nodup (sp : ObjectSampler) (id : Nat)
    (hnd : (sp.list.map ObjectSample.slotId).Nodup) :
    ((sp.scavengeStep id).list.map ObjectSample.slotId).Nodup := by
  unfold ObjectSampler.scavengeStep
  split
  · exact hnd
  · split
    · rw [remove_dead_ids]
      exact hnd.filter _
    · exact hnd

theorem scavengeStep_noDead (sp : ObjectSampler) (id : Nat) (rest : List Nat)
    (hnd : (sp.list.map ObjectSample.slotId).Nodup)
    (h : noDeadOutside sp (id :: rest)) :
    noDeadOutside (sp.scavengeStep id) rest := by
  unfold ObjectSampler.scavengeStep
  split
  · next hnone =>
    intro s hsl hsd
    have hne := listFind_eq_none_forall sp.list id hnone s hsl
    have := h s hsl hsd
    simp only [List.mem_cons] at this
    rcases this with h1 | h1
    · exact absurd h1 hne
    · exact h1
  · next cur hcur =>
    obtain ⟨hcl, hcid⟩ := listFind_mem sp.list id cur hcur
    split
    · next hcd =>
      intro s hsl hsd
      obtain ⟨s0, hs0, hsid, hsdead⟩ := remove_dead_list_shape sp id s hsl
      have hs0d : s0.isDead = true := by rw [← hsdead, hsd]
      have := h s0 hs0 hs0d
      simp only [List.mem_cons] at this
      rcases this with h1 | h1
      · exfalso
        have hmem : s.slotId ∈ (sp.remove_dead id).list.map ObjectSample.slotId :=
          List.mem_map_of_mem ObjectSample.slotId hsl
        rw [remove_dead_ids] at hmem
        have := List.of_mem_filter hmem
        rw [hsid, h1] at this
        simp at this
      · rw [hsid]
        exact h1
    · next hcnd =>
      intro s hsl hsd
      have := h s hsl hsd
      simp only [List.mem_cons] at this
      rcases this with h1 | h1
      · exfalso
        have : s = cur := List.inj_on_of_nodup_map hnd hsl hcl (by rw [h1, hcid])
        rw [this] at hsd
        exact hcnd hsd
      · exact h1

theorem scavengeLoop_no_dead (ids : List Nat) (sp : ObjectSampler)
    (hnd : (sp.list.map ObjectSample.slotId).Nodup)
    (h : noDeadOutside sp ids) :
    ∀ s ∈ (sp.scavengeLoop ids).list, s.isDead = false := by
  induction ids generalizing sp with
  | nil =>
    intro s hs
    rcases hd : s.isDead with _ | _
    · rfl
    · exact absurd (h s hs hd) (List.not_mem_nil s.slotId)
  | cons id rest ih =>
    simp only [ObjectSampler.scavengeLoop]
    exact ih (sp.scavengeStep id) (scavengeStep_nodup sp id hnd)
      (scavengeStep_noDead sp id rest hnd h)

theorem scavengeLoop_of_no_dead (ids : List Nat) (sp : ObjectSampler)
    (h : ∀ s ∈ sp.list, s.isDead = false) :
    sp.scavengeLoop ids = sp := by
  induction ids with
  | nil => rfl
  | cons id rest ih =>
    simp only [ObjectSampler.scavengeLoop]
    have hstep : sp.scavengeStep id = sp := by
      unfold ObjectSampler.scavengeStep
      split
      · rfl
      · next cur hcur =>
        rw [if_neg]
        rw [h cur (listFind_mem sp.list id cur hcur).1]
        simp
    rw [hstep, ih]

theorem scavenge_no_dead (sp : ObjectSampler)
    (hnd : (sp.list.map ObjectSample.slotId).Nodup) :
    ∀ s ∈ sp.scavenge.list, s.isDead = false := by
  intro s hs
  have : sp.scavenge.list = (sp.scavengeLoop (sp.list.map ObjectSample.slotId)).list := rfl
  rw [this] at hs
  exact scavengeLoop_no_dead (sp.list.map ObjectSample.slotId) sp hnd
    (fun s hsl _ => List.mem_map_of_mem ObjectSample.slotId hsl) s hs

theorem set_deadSamples_false_self (sp : ObjectSampler) (h : sp.deadSamples = false) :
    { sp with deadSamples := false } = sp := by
  rcases sp with ⟨a, b, c, d, e, f, g⟩
  simp only at h
  rw [h]

/-- Claim C6: after one `scavenge` no dead samples remain in the age list and
`_dead_samples` is false, so a second `scavenge` with no intervening liveness
scan is a no-op — it leaves the whole sampler state unchanged. -/
theorem scavenge_idempotent (sp : ObjectSampler)
    (hnd : (sp.list.map ObjectSample.slotId).Nodup) :
    sp.scavenge.scavenge = sp.scavenge ∧
    (∀ s ∈ sp.scavenge.list, s.isDead = false) ∧
    sp.scavenge.deadSamples = false := by
  refine ⟨?_, scavenge_no_dead sp hnd, rfl⟩
  show { sp.scavenge.scavengeLoop (sp.scavenge.list.map ObjectSample.slotId) with
      deadSamples := false } = sp.scavenge
  rw [scavengeLoop_of_no_dead _ _ (scavenge_no_dead sp hnd)]
  exact set_deadSamples_false_self sp.scavenge rfl

theorem scavenge_idempotent_witness :
    spDead.scavenge.scavenge = spDead.scavenge ∧
    (∀ s ∈ spDead.scavenge.list, s.isDead = false) ∧
    spDead.scavenge.deadSamples = false :=
  scavenge_idempotent spDead (by decide)

/-! ### Span bookkeeping lemmas for `remove_dead` -/

theorem listFind_addSpanAt (l : List ObjectSample) (p w x : Nat) :
    listFind (listAddSpanAt l p w) x =
      (listFind l x).map
        (fun s => if s.slotId = p then { s with span := s.span + w } else s) := by
  unfold listAddSpanAt listFind
  rw [List.find?_map]
  have hpred : ((fun s : ObjectSample => decide (s.slotId = x)) ∘
      (fun s => if s.slotId = p then { s with span := s.span + w } else s)) =
      (fun s : ObjectSample => decide (s.slotId = x)) := by
    funext s
    by_cases h : s.slotId = p <;> simp [h, Function.comp]
  rw [hpred]

theorem spanOf_addSpanAt_ne (l : List ObjectSample) (p w x : Nat) (hx : x ≠ p) :
    spanOf (listAddSpanAt l p w) x = spanOf l x := by
  unfold spanOf
  rw [listFind_addSpanAt]
  cases hf : listFind l x with
  | none => rfl
  | some s =>
    have hsx : s.slotId = x := (listFind_mem l x s hf).2
    simp only [Option.map_some']
    rw [if_neg (by rw [hsx]; exact hx)]

theorem spanOf_addSpanAt_self (l : List ObjectSample) (p w : Nat) (s : ObjectSample)
    (hfind : listFind l p = some s) :
    spanOf (listAddSpanAt l p w) p = s.span + w := by
  unfold spanOf
  rw [listFind_addSpanAt, hfind]
  simp only [Option.map_some']
  rw [if_pos (listFind_mem l p s hfind).2]

theorem listFind_filter_ne (l : List ObjectSample) (id x : Nat) (hx : x ≠ id) :
    listFind (l.filter (fun s => s.slotId ≠ id)) x = listFind l x := by
  induction l with
  | nil => rfl
  | cons a t ih =>
    rw [List.filter_cons]
    by_cases ha : a.slotId = id
    · rw [if_neg (by simp [ha])]
      have hcons : listFind (a :: t) x = listFind t x := by
        unfold listFind
        apply List.find?_cons_of_neg
        simp only [ha, decide_eq_true_eq]
        exact fun hh => hx hh.symm
      rw [ih, hcons]
    · rw [if_pos (by simp [ha])]
      by_cases hax : a.slotId = x
      · unfold listFind
        rw [List.find?_cons_of_pos _ (by simp [hax]), List.find?_cons_of_pos _ (by simp [hax])]
      · unfold listFind
        rw [List.find?_cons_of_neg _ (by simp [hax]), List.find?_cons_of_neg _ (by simp [hax])]
        exact ih

theorem listFind_filter_self (l : List ObjectSample) (id : Nat) :
    listFind (l.filter (fun s => s.slotId ≠ id)) id = none := by
  unfold listFind
  rw [List.find?_eq_none]
  intro s hs
  have := List.of_mem_filter hs
  simp only [decide_eq_true_eq, decide_not, Bool.not_eq_true'] at this ⊢
  simpa using this

theorem spanOf_filter_ne (l : List ObjectSample) (id x : Nat) (hx : x ≠ id) :
    spanOf (l.filter (fun s => s.slotId ≠ id)) x = spanOf l x := by
  unfold spanOf
  rw [listFind_filter_ne l id x hx]

theorem sum_map_erase (f : Nat → Nat) (ids : List Nat) (a : Nat) (ha : a ∈ ids) :
    (ids.map f).sum = f a + ((ids.erase a).map f).sum := by
  have h1 := (List.perm_cons_erase ha).map f
  rw [h1.sum_eq]
  simp

theorem sum_map_congr_mem (f g : Nat → Nat) (ids : List Nat)
    (h : ∀ x ∈ ids, f x = g x) : (ids.map f).sum = (ids.map g).sum := by
  rw [List.map_congr_left h]

theorem listFind_cons_ne (a : ObjectSample) (t : List ObjectSample) (x : Nat)
    (h : a.slotId ≠ x) : listFind (a :: t) x = listFind t x := by
  unfold listFind
  rw [List.find?_cons]
  simp [h]

theorem listFind_cons_self (a : ObjectSample) (t : List ObjectSample) (x : Nat)
    (h : a.slotId = x) : listFind (a :: t) x = some a := by
  unfold listFind
  rw [List.find?_cons]
  simp [h]

theorem olderNeighbor_props (l : List ObjectSample) (id : Nat) (p : ObjectSample)
    (hnd : (l.map ObjectSample.slotId).Nodup)
    (h : olderNeighbor l id = some p) :
    p ∈ l ∧ p.slotId ≠ id ∧ listFind l p.slotId = some p := by
  induction l with
  | nil => cases h
  | cons a t ih =>
    unfold olderNeighbor at h
    rw [List.map_cons, List.nodup_cons] at hnd
    obtain ⟨hna, hndt⟩ := hnd
    by_cases ha : a.slotId = id
    · rw [if_pos ha] at h
      cases t with
      | nil => cases h
      | cons b t' =>
        have hb : b = p := by simpa using h
        rw [← hb]
        refine ⟨List.mem_cons_of_mem a (List.mem_cons_self b t'), ?_, ?_⟩
        · intro he
          apply hna
          rw [ha, ← he]
          exact List.mem_map_of_mem ObjectSample.slotId (List.mem_cons_self b t')
        · rw [listFind_cons_ne a _ b.slotId ?hne]
          · exact listFind_cons_self b t' b.slotId rfl
          case hne =>
            intro he
            apply hna
            rw [he]
            exact List.mem_map_of_mem ObjectSample.slotId (List.mem_cons_self b t')
    · rw [if_neg ha] at h
      obtain ⟨hpm, hpne, hpf⟩ := ih hndt h
      refine ⟨List.mem_cons_of_mem a hpm, hpne, ?_⟩
      rw [listFind_cons_ne a t p.slotId ?hne2]
      · exact hpf
      case hne2 =>
        intro he
        apply hna
        rw [he]
        exact List.mem_map_of_mem ObjectSample.slotId hpm

theorem remove_dead_conservation (sp : ObjectSampler) (id : Nat) (s p : ObjectSample)
    (hndl : (sp.list.map ObjectSample.slotId).Nodup)
    (hndh : sp.heapIds.Nodup)
    (hfind : listFind sp.list id = some s)
    (hnb : olderNeighbor sp.list id = some p)
    (hsh : id ∈ sp.heapIds)
    (hph : p.slotId ∈ sp.heapIds) :
    (sp.remove_dead id).heapIds = p.slotId :: ((sp.heapIds.erase p.slotId).erase id) ∧
    (sp.remove_dead id).freeIds = id :: sp.freeIds ∧
    (sp.remove_dead id).list =
      (listAddSpanAt sp.list p.slotId s.span).filter (fun t => t.slotId ≠ id) ∧
    spanOf (sp.remove_dead id).list p.slotId = p.span + s.span ∧
    (sp.remove_dead id).heapTotal = sp.heapTotal := by
  obtain ⟨hpm, hpne, hpf⟩ := olderNeighbor_props sp.list id p hndl hnb
  have hres : sp.remove_dead id =
      { sp with
        heapIds := ((p.slotId :: sp.heapIds.erase p.slotId).erase id),
        list := (listAddSpanAt sp.list p.slotId s.span).filter (fun t => t.slotId ≠ id),
        freeIds := id :: sp.freeIds } := by
    simp only [ObjectSampler.remove_dead, hfind, hnb]
  have herase : (p.slotId :: sp.heapIds.erase p.slotId).erase id =
      p.slotId :: ((sp.heapIds.erase p.slotId).erase id) := by
    rw [List.erase_cons_tail]
    simp [hpne]
  have hspan : spanOf ((listAddSpanAt sp.list p.slotId s.span).filter
      (fun t => t.slotId ≠ id)) p.slotId = p.span + s.span := by
    rw [spanOf_filter_ne _ _ _ hpne, spanOf_addSpanAt_self sp.list p.slotId s.span p hpf]
  refine ⟨by rw [hres]; exact herase, by rw [hres], by rw [hres], by rw [hres]; exact hspan, ?_⟩
  have hE1 : ∀ x ∈ (sp.heapIds.erase p.slotId).erase id,
      spanOf ((listAddSpanAt sp.list p.slotId s.span).filter (fun t => t.slotId ≠ id)) x =
        spanOf sp.list x := by
    intro x hx
    have hx1 : x ∈ sp.heapIds.erase p.slotId := List.mem_of_mem_erase hx
    have hxid : x ≠ id := ((hndh.erase p.slotId).mem_erase_iff.mp hx).1
    have hxp : x ≠ p.slotId := (hndh.mem_erase_iff.mp hx1).1
    rw [spanOf_filter_ne _ _ _ hxid, spanOf_addSpanAt_ne _ _ _ _ hxp]
  have hid_mem : id ∈ sp.heapIds.erase p.slotId :=
    hndh.mem_erase_iff.mpr ⟨Ne.symm hpne, hsh⟩
  have hsid : spanOf sp.list id = s.span := by unfold spanOf; rw [hfind]
  have hpid : spanOf sp.list p.slotId = p.span := by unfold spanOf; rw [hpf]
  rw [hres]
  simp only [ObjectSampler.heapTotal]
  rw [herase, List.map_cons, List.sum_cons]
  rw [sum_map_congr_mem _ (spanOf sp.list) _ hE1]
  rw [hspan]
  rw [sum_map_erase (spanOf sp.list) sp.heapIds p.slotId hph]
  rw [sum_map_erase (spanOf sp.list) (sp.heapIds.erase p.slotId) id hid_mem]
  rw [hsid, hpid]
  omega

/-- True when the oldest sample of the age list (if any) is not dead; the
spec's "every dead sample has a strictly older neighbor" in checkable form. -/
def lastAlive (l : List ObjectSample) : Bool :=
  match l.getLast? with
  | none => true
  | some s => !s.isDead

/-- Well-formedness of the sampler state as maintained by the pool and heap
(spec sections 3, 4.1, 4.2): slot ids are unique, the heap contains exactly
the listed samples, and the oldest sample is alive (so every dead sample has
an older neighbor to fold its span into). -/
def WF (sp : ObjectSampler) : Prop :=
  (sp.list.map ObjectSample.slotId).Nodup ∧
  sp.heapIds.Nodup ∧
  (∀ s ∈ sp.list, s.slotId ∈ sp.heapIds) ∧
  (∀ i ∈ sp.heapIds, i ∈ sp.list.map ObjectSample.slotId) ∧
  lastAlive sp.list = true

theorem lastAlive_cons_cons (a b : ObjectSample) (t : List ObjectSample) :
    lastAlive (a :: b :: t) = lastAlive (b :: t) := by
  unfold lastAlive
  rw [List.getLast?_cons_cons]

theorem olderNeighbor_of_dead (l : List ObjectSample) (id : Nat) (s : ObjectSample)
    (hnd : (l.map ObjectSample.slotId).Nodup)
    (hfind : listFind l id = some s) (hdead : s.isDead = true)
    (hlast : lastAlive l = true) :
    ∃ p, olderNeighbor l id = some p := by
  induction l with
  | nil => simp [listFind] at hfind
  | cons a t ih =>
    rw [List.map_cons, List.nodup_cons] at hnd
    by_cases ha : a.slotId = id
    · rw [listFind_cons_self a t id ha] at hfind
      have has : a = s := by injection hfind
      cases t with
      | nil =>
        exfalso
        unfold lastAlive at hlast
        rw [List.getLast?_singleton] at hlast
        have h2 : (!a.isDead) = true := hlast
        rw [has, hdead] at h2
        cases h2
      | cons b t' =>
        refine ⟨b, ?_⟩
        unfold olderNeighbor
        rw [if_pos ha]
        rfl
    · rw [listFind_cons_ne a t id ha] at hfind
      cases t with
      | nil => simp [listFind] at hfind
      | cons b t' =>
        have hlt : lastAlive (b :: t') = true := by
          rw [← lastAlive_cons_cons a b t']
          exact hlast
        obtain ⟨p, hp⟩ := ih hnd.2 hfind hlt
        refine ⟨p, ?_⟩
        unfold olderNeighbor
        rw [if_neg ha]
        exact hp

theorem getLast?_cons_eq_of_getLast?_eq_some {α : Type} (x c : α) (l : List α)
    (h : l.getLast? = some c) : (x :: l).getLast? = some c := by
  cases l with
  | nil => cases h
  | cons d F =>
    rw [@List.getLast?_cons_cons _ x d F]
    exact h

theorem getLast?_filter_addSpan (l : List ObjectSample) (pid w id : Nat)
    (r0 : ObjectSample) (hl : l.getLast? = some r0) (hq : r0.slotId ≠ id) :
    ((listAddSpanAt l pid w).filter (fun t => t.slotId ≠ id)).getLast? =
      some (if r0.slotId = pid then { r0 with span := r0.span + w } else r0) := by
  induction l with
  | nil => simp at hl
  | cons a t ih =>
    cases t with
    | nil =>
      have har : a = r0 := by
        rw [List.getLast?_singleton] at hl
        injection hl
      rw [har]
      unfold listAddSpanAt
      simp only [List.map_cons, List.map_nil, List.filter_cons, List.filter_nil]
      have hgid : (if r0.slotId = pid then { r0 with span := r0.span + w } else r0).slotId =
          r0.slotId := by split <;> rfl
      rw [if_pos (by simp only [hgid]; simp [hq])]
      rw [List.getLast?_singleton]
    | cons b t' =>
      have hl' : (b :: t').getLast? = some r0 := by
        rw [← @List.getLast?_cons_cons _ a b t']
        exact hl
      have ihr := ih hl'
      unfold listAddSpanAt at ihr ⊢
      rw [List.map_cons, List.filter_cons]
      have hgid : (if a.slotId = pid then { a with span := a.span + w } else a).slotId =
          a.slotId := by split <;> rfl
      by_cases haid : a.slotId = id
      · rw [if_neg (by simp only [hgid]; simp [haid])]
        exact ihr
      · rw [if_pos (by simp only [hgid]; simp [haid])]
        apply getLast?_cons_eq_of_getLast?_eq_some
        exact ihr

theorem lastAlive_filter_addSpan (l : List ObjectSample) (pid w id : Nat)
    (hnd : (l.map ObjectSample.slotId).Nodup)
    (hex : ∃ s ∈ l, s.slotId = id ∧ s.isDead = true)
    (hlast : lastAlive l = true) :
    lastAlive ((listAddSpanAt l pid w).filter (fun t => t.slotId ≠ id)) = true := by
  cases hl : l.getLast? with
  | none =>
    have : l = [] := List.getLast?_eq_none_iff.mp hl
    rw [this]
    rfl
  | some r0 =>
    have hr0 : r0.isDead = false := by
      unfold lastAlive at hlast
      rw [hl] at hlast
      simpa using hlast
    obtain ⟨s, hsmem, hsid, hsdead⟩ := hex
    have hr0mem : r0 ∈ l := List.mem_of_mem_getLast? hl
    have hq : r0.slotId ≠ id := by
      intro he
      have hrs : r0 = s := List.inj_on_of_nodup_map hnd hr0mem hsmem (by rw [he, hsid])
      rw [hrs, hsdead] at hr0
      cases hr0
    unfold lastAlive
    rw [getLast?_filter_addSpan l pid w id r0 hl hq]
    have hgd : (if r0.slotId = pid then { r0 with span := r0.span + w } else r0).isDead =
        r0.isDead := by split <;> rfl
    show (!(if r0.slotId = pid then { r0 with span := r0.span + w } else r0).isDead) = true
    rw [hgd, hr0]
    rfl

theorem scavengeStep_WF (sp : ObjectSampler) (id : Nat) (h : WF sp) :
    WF (sp.scavengeStep id) ∧ (sp.scavengeStep id).heapTotal = sp.heapTotal := by
  obtain ⟨hndl, hndh, hlh, hhl, hlast⟩ := h
  unfold ObjectSampler.scavengeStep
  split
  · exact ⟨⟨hndl, hndh, hlh, hhl, hlast⟩, rfl⟩
  · next cur hcur =>
    split
    · next hcd =>
      obtain ⟨p, hnb⟩ := olderNeighbor_of_dead sp.list id cur hndl hcur hcd hlast
      obtain ⟨hpm, hpne, hpf⟩ := olderNeighbor_props sp.list id p hndl hnb
      have hsmem : cur ∈ sp.list := (listFind_mem sp.list id cur hcur).1
      have hsid : cur.slotId = id := (listFind_mem sp.list id cur hcur).2
      have hsh : id ∈ sp.heapIds := hsid ▸ hlh cur hsmem
      have hph : p.slotId ∈ sp.heapIds := hlh p hpm
      obtain ⟨hH, hF, hL, hS, hT⟩ :=
        remove_dead_conservation sp id cur p hndl hndh hcur hnb hsh hph
      refine ⟨⟨?_, ?_, ?_, ?_, ?_⟩, hT⟩
      · rw [remove_dead_ids]
        exact hndl.filter _
      · rw [hH]
        refine List.nodup_cons.mpr ⟨?_, (hndh.erase _).erase _⟩
        intro hmem
        have h1 : p.slotId ∈ sp.heapIds.erase p.slotId := List.mem_of_mem_erase hmem
        exact ((hndh.mem_erase_iff.mp h1).1) rfl
      · intro s' hs'
        rw [hL] at hs'
        have hneid : s'.slotId ≠ id := by simpa using List.of_mem_filter hs'
        have hs'2 := List.mem_of_mem_filter hs'
        unfold listAddSpanAt at hs'2
        rw [List.mem_map] at hs'2
        obtain ⟨s0, hs0, rfl⟩ := hs'2
        have hgid : (if s0.slotId = p.slotId then { s0 with span := s0.span + cur.span }
            else s0).slotId = s0.slotId := by split <;> rfl
        rw [hH, hgid]
        rw [hgid] at hneid
        by_cases hsp : s0.slotId = p.slotId
        · rw [hsp]
          exact List.mem_cons_self _ _
        · refine List.mem_cons_of_mem _ ?_
          refine ((hndh.erase _).mem_erase_iff).mpr ⟨hneid, ?_⟩
          exact hndh.mem_erase_iff.mpr ⟨hsp, hlh s0 hs0⟩
      · intro i hi
        rw [hH] at hi
        rw [remove_dead_ids]
        rcases List.mem_cons.mp hi with h1 | h1
        · refine List.mem_filter.mpr ⟨?_, by simp [h1, hpne]⟩
          rw [h1]
          exact List.mem_map_of_mem _ hpm
        · have hiid : i ≠ id := ((hndh.erase _).mem_erase_iff.mp h1).1
          have h2 : i ∈ sp.heapIds.erase p.slotId := List.mem_of_mem_erase h1
          have h3 : i ∈ sp.heapIds := List.mem_of_mem_erase h2
          exact List.mem_filter.mpr ⟨hhl i h3, by simp [hiid]⟩
      · rw [hL]
        exact lastAlive_filter_addSpan sp.list p.slotId cur.span id hndl
          ⟨cur, hsmem, hsid, hcd⟩ hlast
    · next hcnd =>
      exact ⟨⟨hndl, hndh, hlh, hhl, hlast⟩, rfl⟩

theorem scavengeLoop_WF (ids : List Nat) (sp : ObjectSampler) (h : WF sp) :
    WF (sp.scavengeLoop ids) ∧ (sp.scavengeLoop ids).heapTotal = sp.heapTotal := by
  induction ids generalizing sp with
  | nil => exact ⟨h, rfl⟩
  | cons id rest ih =>
    obtain ⟨hwf, htot⟩ := scavengeStep_WF sp id h
    obtain ⟨hwf', htot'⟩ := ih (sp.scavengeStep id) hwf
    exact ⟨hwf', by rw [ObjectSampler.scavengeLoop, htot', htot]⟩

theorem scavenge_heapTotal (sp : ObjectSampler) (h : WF sp) :
    sp.scavenge.heapTotal = sp.heapTotal := by
  have := (scavengeLoop_WF (sp.list.map ObjectSample.slotId) sp h).2
  unfold ObjectSampler.scavenge
  exact this

/-- Claim C3: `remove_dead` on a dead sample with an age-list predecessor
removes the predecessor from the heap, folds the dead sample's span into it,
re-pushes it, then removes the dead sample from the heap and releases its
slot (lines 150-162); consequently the predecessor's span grows by exactly
the dead sample's span and `heap.total()` is unchanged — both per
`remove_dead` call and across a whole `scavenge` on a well-formed sampler. -/
theorem remove_dead_span_conservation :
    (∀ (sp : ObjectSampler) (id : Nat) (s p : ObjectSample),
      (sp.list.map ObjectSample.slotId).Nodup → sp.heapIds.Nodup →
      listFind sp.list id = some s → s.isDead = true →
      olderNeighbor sp.list id = some p →
      id ∈ sp.heapIds → p.slotId ∈ sp.heapIds →
      ((sp.remove_dead id).heapIds = p.slotId :: ((sp.heapIds.erase p.slotId).erase id) ∧
       (sp.remove_dead id).freeIds = id :: sp.freeIds ∧
       (sp.remove_dead id).list =
         (listAddSpanAt sp.list p.slotId s.span).filter (fun t => t.slotId ≠ id) ∧
       spanOf (sp.remove_dead id).list p.slotId = p.span + s.span ∧
       (sp.remove_dead id).heapTotal = sp.heapTotal)) ∧
    (∀ sp : ObjectSampler, WF sp → sp.scavenge.heapTotal = sp.heapTotal) := by
  constructor
  · intro sp id s p hndl hndh hfind _hdead hnb hsh hph
    exact remove_dead_conservation sp id s p hndl hndh hfind hnb hsh hph
  · exact scavenge_heapTotal

theorem remove_dead_span_conservation_witness :
    ((spDead.remove_dead 0).heapIds =
        smOld.slotId :: ((spDead.heapIds.erase smOld.slotId).erase 0) ∧
      (spDead.remove_dead 0).freeIds = 0 :: spDead.freeIds ∧
      (spDead.remove_dead 0).list =
        (listAddSpanAt spDead.list smOld.slotId smDead.span).filter
          (fun t => t.slotId ≠ 0) ∧
      spanOf (spDead.remove_dead 0).list smOld.slotId = smOld.span + smDead.span ∧
      (spDead.remove_dead 0).heapTotal = spDead.heapTotal) ∧
    spDead.scavenge.heapTotal = spDead.heapTotal :=
  ⟨remove_dead_span_conservation.1 spDead 0 smDead smOld (by decide) (by decide)
      (by decide) (by decide) (by decide) (by decide) (by decide),
   remove_dead_span_conservation.2 spDead
     ⟨by decide, by decide, by decide, by decide, by decide⟩⟩

end LeakProfiler
